import Mathlib

/-!
Verification of the debate-orchestration core of the `ai_bate` repository
(`src/server/debate/manager.ts`, `judge.ts`, `store.ts`, `types.ts`, and the
tRPC router).  The TypeScript code is shallowly embedded: JS numbers are
modelled as rationals, fallible calls return `Except`, the external Dify
text-generation backend is abstracted as an oracle argument, and the
snapshots handed to the persistence callbacks (`onStateChange` /
`onProgressChange`, both of which persist `getState()`) are collected as an
explicit trace list.
-/

namespace AiBate

/-- `"pro" | "con"` in types.ts. -/
inductive Side
  | pro
  | con
deriving DecidableEq

/-- `DebateState.status` union in types.ts line 104. -/
inductive Status
  | pending
  | in_progress
  | judging
  | completed
  | error
deriving DecidableEq

/-- `DebateMessage` in types.ts (the spec calls it Turn).  The `timestamp`
field is omitted: no claim mentions timestamps. -/
structure Turn where
  side : Side
  message : String
deriving DecidableEq

/-- Per-side category scores (`detailedScores.pro` / `.con` in types.ts). -/
structure CategoryScores where
  logic : ℚ
  evidence : ℚ
  rebuttal : ℚ
  expression : ℚ
deriving DecidableEq

/-- Per-side category rationale strings (`scoreReasons.pro` / `.con`). -/
structure CategoryTexts where
  logic : String
  evidence : String
  rebuttal : String
  expression : String
deriving DecidableEq

/-- The `Judge` interface of types.ts (one judge's verdict; the spec calls it
JudgeResult).  The `animationState` field is omitted (pure UI hints, no claim
touches it). -/
structure JudgeResult where
  name : String
  scorePro : ℚ
  scoreCon : ℚ
  detailedPro : CategoryScores
  detailedCon : CategoryScores
  comment : String
  prosHighlights : List String
  consHighlights : List String
  suggestions : List String
  scoreReasonsPro : CategoryTexts
  scoreReasonsCon : CategoryTexts
  overallComment : String
  recommendedWinner : Option (Side × String)
deriving DecidableEq

/-- `JudgeConfig` in types.ts. -/
structure JudgeConfig where
  apiKey : String
  name : String
deriving DecidableEq

/-- `DebateConfig` in types.ts.  The TS type forces `judgeConfigs` to be a
6-tuple; runtime snapshots are untyped JSON, and `initializeAgents` re-checks
the length at runtime, so it is modelled as a list. -/
structure DebateConfig where
  proKey : String
  conKey : String
  judgeConfigs : List JudgeConfig
  maxRounds : ℕ
deriving DecidableEq

/-- `finalScores.eliminatedScores.pro` / `.con` in types.ts. -/
structure SideExtremes where
  highest : ℚ
  lowest : ℚ
deriving DecidableEq

/-- `DebateState.finalScores` in types.ts. -/
structure FinalScores where
  pro : ℚ
  con : ℚ
  detailsPro : CategoryScores
  detailsCon : CategoryScores
  eliminatedPro : SideExtremes
  eliminatedCon : SideExtremes
deriving DecidableEq

/-- `DebateState` in types.ts.  `id`, `createdAt`, `updatedAt` are omitted
(opaque identifier and wall-clock timestamps; no claim depends on them). -/
structure DebateState where
  topic : String
  background : String
  status : Status
  messages : List Turn
  judges : List JudgeResult
  winner : Option Side
  finalScores : Option FinalScores
  errorMessage : Option String
  config : DebateConfig
deriving DecidableEq

/-! ## Scoring (`manager.ts` aggregation, `judge.ts` composite) -/

/-- manager.ts `calculateFinalScore` (lines 224-232, duplicated as a local
function inside `runJudging` lines 352-375): copy the scores, sort ascending,
`pop()` the last element (the highest), `shift()` the first (the lowest), and
return the average of what remains. -/
def calculateFinalScore (scores : List ℚ) : ℚ :=
  let sortedScores := scores.insertionSort (· ≤ ·)
  let trimmed := sortedScores.dropLast.tail
  trimmed.sum / (trimmed.length : ℚ)

/-- judge.ts `calculateTotalScore` (lines 247-251): fixed weights
0.3 logic + 0.3 evidence + 0.2 rebuttal + 0.2 expression. -/
def calculateTotalScore (s : CategoryScores) : ℚ :=
  s.logic * (3 / 10) + s.evidence * (3 / 10) +
    s.rebuttal * (2 / 10) + s.expression * (2 / 10)

/-- `pro > con ? "pro" : pro < con ? "con" : null` (manager.ts lines 402-403). -/
def determineWinner (pro con : ℚ) : Option Side :=
  if pro > con then some Side.pro
  else if pro < con then some Side.con
  else none

/-- manager.ts `calculateDetailedFinalScores` (lines 234-259): for each side
and each of the four categories, collect each judge's value for that category
(`judge.detailedScores?.[side][category] ?? 50`; `detailedScores` is always
present in our typed model) and trim-average them.  Returns (pro, con). -/
def calculateDetailedFinalScores (judges : List JudgeResult) :
    CategoryScores × CategoryScores :=
  (⟨calculateFinalScore (judges.map fun j => j.detailedPro.logic),
    calculateFinalScore (judges.map fun j => j.detailedPro.evidence),
    calculateFinalScore (judges.map fun j => j.detailedPro.rebuttal),
    calculateFinalScore (judges.map fun j => j.detailedPro.expression)⟩,
   ⟨calculateFinalScore (judges.map fun j => j.detailedCon.logic),
    calculateFinalScore (judges.map fun j => j.detailedCon.evidence),
    calculateFinalScore (judges.map fun j => j.detailedCon.rebuttal),
    calculateFinalScore (judges.map fun j => j.detailedCon.expression)⟩)

/-! ## Judge evaluation (`judge.ts`) -/

/-- The all-75 `detailedScores` block of the degraded result
(judge.ts lines 324-327). -/
def defaultCategoryScores : CategoryScores := ⟨75, 75, 75, 75⟩

/-- The per-category failure rationale of the degraded result
(judge.ts lines 334-347). -/
def failureReasons (errorMessage : String) : CategoryTexts :=
  ⟨"评分失败：" ++ errorMessage, "评分失败：" ++ errorMessage,
   "评分失败：" ++ errorMessage, "评分失败：" ++ errorMessage⟩

/-- The fully-populated default `Judge` value returned when the final retry
attempt fails (judge.ts lines 318-356): every category score is the neutral
default 75, the composite totals are 75, and all rationale text explains the
failure. -/
def defaultJudgeResult (name errorMessage : String) : JudgeResult where
  name := name
  scorePro := 75
  scoreCon := 75
  detailedPro := defaultCategoryScores
  detailedCon := defaultCategoryScores
  comment := "评委" ++ name ++ "评分过程中遇到技术问题：" ++ errorMessage
  prosHighlights := ["由于技术原因暂时无法完成详细点评"]
  consHighlights := ["由于技术原因暂时无法完成详细点评"]
  suggestions := ["请稍后重新进行评分，或联系技术支持"]
  scoreReasonsPro := failureReasons errorMessage
  scoreReasonsCon := failureReasons errorMessage
  overallComment := "评分过程中遇到技术问题：" ++ errorMessage
  recommendedWinner := none

/-- judge.ts `evaluate` (lines 253-362), retry loop from attempt index
`attempt` up to `maxRetries`.  The body of the try block — the Dify network
call plus `parseScores` / `parseHighlights` / `parseScoreReasons` /
`parseOverallComment` and their validations, all of which depend on the
external model's free-form reply — is abstracted as the oracle `attemptBody`:
attempt `i` either yields a parsed `JudgeResult` or throws an error message
(transport failure, or one of the `throw new Error("Invalid ... detected")`
parse failures).  On a failed attempt: if it was the final attempt
(`attempt === maxRetries - 1`) the default 75-score result is returned,
otherwise the loop retries.
The `for` loop over attempt indices `attempt, attempt+1, ..., maxRetries-1`
runs for `maxRetries - attempt` iterations, which is the structural fuel
here; falling out of the loop (fuel 0) rethrows the last error. -/
def evaluateFrom (name : String) (attemptBody : ℕ → Except String JudgeResult)
    (maxRetries : ℕ) :
    ℕ → ℕ → Option String → Except String JudgeResult
  | 0, _, lastError =>
      Except.error (lastError.getD "评分失败，已达到最大重试次数")
  | fuel + 1, attempt, _ =>
      match attemptBody attempt with
      | Except.ok r => Except.ok r
      | Except.error e =>
          if attempt = maxRetries - 1 then
            Except.ok (defaultJudgeResult name e)
          else
            evaluateFrom name attemptBody maxRetries fuel (attempt + 1) (some e)

/-- judge.ts `evaluate` with the hard-coded `maxRetries = 3` (line 254):
the loop starts at attempt 0 with 3 iterations of fuel and no last error. -/
def evaluate (name : String) (attemptBody : ℕ → Except String JudgeResult) :
    Except String JudgeResult :=
  evaluateFrom name attemptBody 3 3 0 none

/-- The sequential per-judge collection loop of manager.ts `runJudging`
(lines 302-314): evaluate each configured judge in insertion order, pushing
each result; a thrown evaluation would propagate (monadically) to the round
loop.  `judgeBody i` is judge `i`'s attempt oracle. -/
def collectJudgeResults (judgeBody : ℕ → ℕ → Except String JudgeResult) :
    ℕ → List JudgeConfig → Except String (List JudgeResult)
  | _, [] => Except.ok []
  | i, jc :: rest =>
      match evaluate jc.name (judgeBody i) with
      | Except.error e => Except.error e
      | Except.ok r =>
          match collectJudgeResults judgeBody (i + 1) rest with
          | Except.error e => Except.error e
          | Except.ok rs => Except.ok (r :: rs)

/-! ## The DebateManager (`manager.ts`)

The Dify agents are abstracted as a generation oracle (side, topic,
transcript so far → text or thrown error) and the judges' attempt bodies as
a judge oracle (judge index, attempt index → parsed result or thrown error).
Both `onStateChange` and `onProgressChange` observers persist `getState()`
(store.ts lines 47-58, 144-161, 320-326), so every notify call is recorded
in the trace as the `DebateState` snapshot current at that moment; repeated
per-token streaming notifications of an unchanged state are collapsed into
the single progress notification that precedes them. -/

/-- Abstraction of `DifyDebateAgent.generateResponse`. -/
def GenOracle := Side → String → List Turn → Except String String

/-- Abstraction of judge `i`'s evaluation attempt bodies. -/
def JudgeOracle := ℕ → ℕ → Except String JudgeResult

/-- A `DifyDebateJudge` instance as created by `initializeAgents`. -/
structure JudgeAgent where
  apiKey : String
  name : String
deriving DecidableEq

/-- The private mutable fields of `DebateManager` (manager.ts lines 18-31).
`errorMessageField` is the private `errorMessage` member, distinct from
`state.errorMessage`. -/
structure ManagerState where
  state : DebateState
  judgeAgents : List JudgeAgent
  maxRounds : ℕ
  currentRound : ℕ
  isRunning : Bool
  debatePromiseActive : Bool
  errorMessageField : Option String
  streamingText : String
  currentStreamingSide : Option Side
  isThinking : Bool
deriving DecidableEq

/-- manager.ts `initializeAgents` (lines 59-72): throws unless exactly 6
judge configs, otherwise builds the 6 judge instances in config order. -/
def initializeAgents (config : DebateConfig) : Except String (List JudgeAgent) :=
  if config.judgeConfigs.length ≠ 6 then Except.error "必须配置6个评委"
  else Except.ok (config.judgeConfigs.map fun jc =>
    { apiKey := jc.apiKey, name := jc.name })

/-- The `DebateManager` constructor (manager.ts lines 33-57): fresh pending
state, then `initializeAgents` (whose exception propagates out of the
constructor). -/
def mkDebateManager (topic background : String) (config : DebateConfig) :
    Except String ManagerState :=
  match initializeAgents config with
  | Except.error e => Except.error e
  | Except.ok agents => Except.ok {
    state := {
      topic := topic, background := background, status := Status.pending,
      messages := [], judges := [], winner := none, finalScores := none,
      errorMessage := none, config := config },
    judgeAgents := agents,
    maxRounds := config.maxRounds,
    currentRound := 0,
    isRunning := false,
    debatePromiseActive := false,
    errorMessageField := none,
    streamingText := "",
    currentStreamingSide := none,
    isThinking := false }

/-- manager.ts `addMessage` (lines 105-114): append the turn (timestamps
omitted) and notify. -/
def addMessage (s : DebateState) (side : Side) (message : String) :
    DebateState :=
  { s with messages := s.messages ++ [{ side := side, message := message }] }

/-- manager.ts `setErrorStatus` (lines 445-452) restricted to the session
state: status becomes `error` and the message is recorded. -/
def setErrorStatus (s : DebateState) (message : String) : DebateState :=
  { s with status := Status.error, errorMessage := some message }

/-- manager.ts `runDebateRound` (lines 116-173): pro speaks first (context =
transcript so far), the turn is appended, then con speaks seeing pro's new
turn.  Either generation failure calls `setErrorStatus` and rethrows.
Returns the emitted snapshots and the outcome (errors carry the state at the
throw).  Emissions: the pro-thinking progress event, the post-append notify
for each side, the con-thinking progress event, and the two end-of-round
notifications; `setErrorStatus` notifies twice (progress + state). -/
def runDebateRound (gen : GenOracle) (s : DebateState) :
    List DebateState × Except (String × DebateState) DebateState :=
  match gen Side.pro s.topic s.messages with
  | Except.error e =>
      let sErr := setErrorStatus s e
      ([s, sErr, sErr], Except.error (e, sErr))
  | Except.ok proText =>
      let s1 := addMessage s Side.pro proText
      match gen Side.con s.topic s1.messages with
      | Except.error e =>
          let sErr := setErrorStatus s1 e
          ([s, s1, s1, sErr, sErr], Except.error (e, sErr))
      | Except.ok conText =>
          let s2 := addMessage s1 Side.con conText
          ([s, s1, s1, s2, s2, s2], Except.ok s2)

/-- The `while (this.currentRound < this.maxRounds)` loop of
manager.ts `runDebateLoop` (lines 179-182): run a round, then increment the
round counter — only after both sides have spoken.  The loop body executes
`maxRounds - currentRound` times, which is the structural fuel here.
Returns the emitted snapshots, the final value of `currentRound`, and the
outcome. -/
def runRoundsGo (gen : GenOracle) :
    ℕ → ℕ → DebateState →
    List DebateState × ℕ × Except (String × DebateState) DebateState
  | 0, currentRound, s => ([], currentRound, Except.ok s)
  | fuel + 1, currentRound, s =>
      match runDebateRound gen s with
      | (tr, Except.error es) => (tr, currentRound, Except.error es)
      | (tr, Except.ok sNext) =>
          let rest := runRoundsGo gen fuel (currentRound + 1) sNext
          (tr ++ rest.1, rest.2.1, rest.2.2)

/-- The round loop entered with counter `currentRound`: the guard
`currentRound < maxRounds` fails immediately exactly when the fuel
`maxRounds - currentRound` is 0. -/
def runRoundsFrom (gen : GenOracle) (maxRounds currentRound : ℕ)
    (s : DebateState) :
    List DebateState × ℕ × Except (String × DebateState) DebateState :=
  runRoundsGo gen (maxRounds - currentRound) currentRound s

/-- JS `Math.max(...scores)` on a (nonempty) score list; the empty case
(which would be -Infinity in JS) never arises with the 6-judge panel. -/
def jsMax : List ℚ → ℚ
  | [] => 0
  | x :: xs => xs.foldl max x

/-- JS `Math.min(...scores)`. -/
def jsMin : List ℚ → ℚ
  | [] => 0
  | x :: xs => xs.foldl min x

/-- The final-score block written by manager.ts `runJudging` (lines 377-403)
once `this.state.judges = judgeResults` has been assigned: the overall
per-side totals are the trimmed means of the judges' own composite scores,
the per-category details come from `calculateDetailedFinalScores`, the
eliminated extremes are `Math.max`/`Math.min` of the composite lists, and
the winner is the strict comparison of the two trimmed totals. -/
def setFinalScoresAndWinner (s1 : DebateState) : DebateState :=
  let proScores := s1.judges.map fun j => j.scorePro
  let conScores := s1.judges.map fun j => j.scoreCon
  let details := calculateDetailedFinalScores s1.judges
  let proFinalScore := calculateFinalScore proScores
  let conFinalScore := calculateFinalScore conScores
  { s1 with
    finalScores := some {
      pro := proFinalScore,
      con := conFinalScore,
      detailsPro := details.1,
      detailsCon := details.2,
      eliminatedPro := { highest := jsMax proScores, lowest := jsMin proScores },
      eliminatedCon := { highest := jsMax conScores, lowest := jsMin conScores } },
    winner := determineWinner proFinalScore conFinalScore }

/-- manager.ts `runJudging` (lines 290-421).  Phase order: scoring-animation
progress events while the judges are evaluated sequentially (the session
state is unchanged during the per-judge loop), then
`this.state.judges = judgeResults`, then the calculating-final animation
events (11 notifies: 1 initial + 8 per-category reveals + 2 eliminated-score
reveals), then `finalScores` and `winner` are assigned, then the
showing-winner and completed animation events — all before the caller marks
the session completed.  A thrown judge evaluation would propagate (the
branch is unreachable: `evaluate` is proved total below). -/
def runJudging (judgeBody : JudgeOracle) (s : DebateState) :
    List DebateState × Except (String × DebateState) DebateState :=
  match collectJudgeResults judgeBody 0 s.config.judgeConfigs with
  | Except.error e => ([s], Except.error (e, s))
  | Except.ok results =>
      let s1 := { s with judges := results }
      let s2 := setFinalScoresAndWinner s1
      (List.replicate (1 + 3 * s.config.judgeConfigs.length) s ++
        List.replicate 11 s1 ++ [s2, s2],
       Except.ok s2)

/-- manager.ts `runDebateLoop` (lines 175-196): all rounds, then judging,
then `status = "completed"` with a final notify; its catch block re-applies
`setErrorStatus` (two more notifies) and rethrows. -/
def runDebateLoop (gen : GenOracle) (judgeBody : JudgeOracle)
    (maxRounds currentRound : ℕ) (s : DebateState) :
    List DebateState × ℕ × Except (String × DebateState) DebateState :=
  match runRoundsFrom gen maxRounds currentRound s with
  | (tr, r, Except.error (e, sErr)) =>
      let sE := setErrorStatus sErr e
      (tr ++ [sE, sE], r, Except.error (e, sE))
  | (tr, r, Except.ok sRounds) =>
      match runJudging judgeBody sRounds with
      | (tr2, Except.error (e, sErr)) =>
          let sE := setErrorStatus sErr e
          (tr ++ tr2 ++ [sE, sE], r, Except.error (e, sE))
      | (tr2, Except.ok sJudged) =>
          let sDone := { sJudged with status := Status.completed }
          (tr ++ tr2 ++ [sDone], r, Except.ok sDone)

instance {ε α : Type _} [DecidableEq ε] [DecidableEq α] :
    DecidableEq (Except ε α) := fun x y =>
  match x, y with
  | Except.ok a, Except.ok b =>
      if h : a = b then isTrue (by rw [h])
      else isFalse (by intro hh; injection hh; contradiction)
  | Except.error a, Except.error b =>
      if h : a = b then isTrue (by rw [h])
      else isFalse (by intro hh; injection hh; contradiction)
  | Except.ok _, Except.error _ => isFalse (by intro hh; exact Except.noConfusion hh)
  | Except.error _, Except.ok _ => isFalse (by intro hh; exact Except.noConfusion hh)

/-- What one invocation of `start()` produces: the persisted snapshots in
order, what the promise returned by `start` settles to, and the manager
afterwards. -/
structure RunOutcome where
  trace : List DebateState
  result : Except String Unit
  final : ManagerState
deriving DecidableEq

/-- manager.ts `start` (lines 423-443): throws synchronously if
`isRunning`; otherwise sets `status = "in_progress"`, notifies, runs
`runDebateLoop` and — because of the `await this.debatePromise` on line 435 —
settles only after the loop finishes, rethrowing the loop's error after one
more `setErrorStatus` (two notifies); the finally block clears
`isRunning`. -/
def start (gen : GenOracle) (judgeBody : JudgeOracle) (m : ManagerState) :
    RunOutcome :=
  if m.isRunning then
    { trace := [], result := Except.error "Debate is already running", final := m }
  else
    let s0 := { m.state with status := Status.in_progress }
    match runDebateLoop gen judgeBody m.maxRounds m.currentRound s0 with
    | (tr, r, Except.error (e, sErr)) =>
        let sE := setErrorStatus sErr e
        let mF := { m with
          state := sE, currentRound := r, isRunning := false,
          debatePromiseActive := false }
        { trace := s0 :: tr ++ [sE, sE], result := Except.error e, final := mF }
    | (tr, r, Except.ok sDone) =>
        let mF := { m with
          state := sDone, currentRound := r, isRunning := false,
          debatePromiseActive := false }
        { trace := s0 :: tr, result := Except.ok (), final := mF }

/-- JS truthiness test used by `!state.errorMessage` on manager.ts line 481:
`null` (and an empty string) are falsy, any other string is truthy. -/
def jsFalsy : Option String → Bool
  | none => true
  | some s => s == ""

/-- What `restoreState` produces: the manager right after the call returns
(the resumed loop, if any, runs in the background), whether the round loop
was resumed, and the resumed loop's emissions and outcome. -/
structure RestoreOutcome where
  manager : ManagerState
  resumed : Bool
  loopTrace : List DebateState
  loopOutcome : Option (Except (String × DebateState) DebateState)
deriving DecidableEq

/-- manager.ts `restoreState` (lines 454-485): adopt the persisted state
(date revival omitted), re-derive `maxRounds` and
`currentRound = Math.floor(messages.length / 2)`, re-run `initializeAgents`
(whose 6-judge exception propagates), reset the transient streaming fields
to idle, notify, and resume the round loop exactly when
`status === "in_progress" && !state.errorMessage && !this.debatePromise`. -/
def restoreState (gen : GenOracle) (judgeBody : JudgeOracle)
    (debatePromiseActive : Bool) (s : DebateState) :
    Except String RestoreOutcome :=
  match initializeAgents s.config with
  | Except.error e => Except.error e
  | Except.ok agents =>
  let m : ManagerState := {
    state := s,
    judgeAgents := agents,
    maxRounds := s.config.maxRounds,
    currentRound := s.messages.length / 2,
    isRunning := false,
    debatePromiseActive := debatePromiseActive,
    errorMessageField := s.errorMessage,
    streamingText := "",
    currentStreamingSide := none,
    isThinking := false }
  if s.status = Status.in_progress ∧ jsFalsy s.errorMessage = true ∧
      debatePromiseActive = false then
    let loop := runDebateLoop gen judgeBody m.maxRounds m.currentRound s
    Except.ok {
      manager := { m with isRunning := true, debatePromiseActive := true },
      resumed := true,
      loopTrace := loop.1,
      loopOutcome := some loop.2.2 }
  else
    Except.ok {
      manager := m,
      resumed := false,
      loopTrace := [],
      loopOutcome := none }

/-! ## The durable store's snapshot validator (`store.ts`)

`getDebate` parses untyped JSON, so the validator's input is modelled as a
small JSON value type. -/

inductive Json where
  | null
  | bool (b : Bool)
  | num (q : ℚ)
  | str (s : String)
  | arr (elems : List Json)
  | obj (fields : List (String × Json))

/-- Property access `state.k` / the `in` operator on a parsed JSON value:
string-keyed fields exist only on objects. -/
def Json.getField : Json → String → Option Json
  | Json.obj fields, k => fields.lookup k
  | _, _ => none

/-- JS `typeof x === "object"` — true for plain objects, arrays and `null`. -/
def Json.typeofObject : Json → Bool
  | Json.null => true
  | Json.arr _ => true
  | Json.obj _ => true
  | _ => false

/-- JS truthiness of a parsed JSON value. -/
def jsTruthyJson : Json → Bool
  | Json.null => false
  | Json.bool b => b
  | Json.num q => !(q == 0)
  | Json.str s => !(s == "")
  | Json.arr _ => true
  | Json.obj _ => true

/-- `typeof state.k === "string"`. -/
def Json.fieldIsStr (state : Json) (k : String) : Bool :=
  match state.getField k with
  | some (Json.str _) => true
  | _ => false

/-- `Array.isArray(state.k)`. -/
def Json.fieldIsArr (state : Json) (k : String) : Bool :=
  match state.getField k with
  | some (Json.arr _) => true
  | _ => false

/-- The status union of `DebateState` (types.ts line 104) — the enum the
spec's structural validator is required to check membership of. -/
def declaredStatusStrings : List String :=
  ["pending", "in_progress", "judging", "completed", "error"]

/-- store.ts `isValidDebateState` (lines 358-378), check for check:
truthy object, the five required top-level fields present, `topic` and
`background` strings, `messages` an array, `status` a string contained in
`['pending', 'active', 'completed', 'error']`, and `config` a truthy object
whose `judgeConfigs` is an array. -/
def isValidDebateState (state : Json) : Bool :=
  if !(jsTruthyJson state && state.typeofObject) then false
  else if !((["topic", "background", "config", "status", "messages"]).all
      fun f => (state.getField f).isSome) then false
  else if !(state.fieldIsStr "topic") then false
  else if !(state.fieldIsStr "background") then false
  else if !(state.fieldIsArr "messages") then false
  else if !(state.fieldIsStr "status") then false
  else if !(match state.getField "status" with
      | some (Json.str st) => (["pending", "active", "completed", "error"]).contains st
      | _ => false) then false
  else if !(match state.getField "config" with
      | some cfg => jsTruthyJson cfg && cfg.typeofObject
      | none => false) then false
  else if !(match state.getField "config" with
      | some cfg => cfg.fieldIsArr "judgeConfigs"
      | none => false) then false
  else true

/-- Outcome of `DebateStore.getDebate` (store.ts lines 281-356) for a
session that is not in the in-memory map. -/
inductive RecoveryOutcome where
  | restored
  | quarantinedNotFound (reason : String)
  | missingNotFound
deriving DecidableEq

/-- The recovery path of store.ts `getDebate` for a session id that misses
the in-memory map: if no snapshot file exists, return null (line 294-297);
otherwise parse and validate.  Validation failure throws
"Invalid debate state structure"; the read/validate attempt is retried 3
times (deterministically failing each time), the final attempt calls
`backupCorruptedDebate` — which copies the artifact into the `corrupted/`
directory, appends the failure reason as an annotation, and only then
unlinks the original (a move, never a bare delete) — and the outer catch
turns the rethrown error into a null result, i.e. not-found, never a crash.
On validation success a new `DebateManager` is built, `restoreState(state)`
is invoked and the manager is registered in the in-memory map
(lines 319-335). -/
def recoverFromSnapshot (fileExistsOnDisk : Bool) (parsed : Json) :
    RecoveryOutcome :=
  if !fileExistsOnDisk then RecoveryOutcome.missingNotFound
  else if isValidDebateState parsed then RecoveryOutcome.restored
  else RecoveryOutcome.quarantinedNotFound "Invalid debate state structure"

/-! ## The `getDebateStatus` tRPC procedure (router, lines 65-106) -/

/-- A JS Promise as a first-class value: what `debateStore.getDebate(id)`
evaluates to when it is not awaited. -/
structure JsPromise (α : Type) where
  eventual : α
deriving DecidableEq

/-- Any JS object — a Promise included — is truthy, so
`if (!debate)` can never take the not-found branch. -/
def promiseTruthy {α : Type} (_p : JsPromise α) : Bool := true

/-- `debate.getState()` where `debate` is the un-awaited Promise:
`Promise.prototype` has no `getState`, so the property is `undefined` and
the call throws `TypeError: debate.getState is not a function`.  (Had the
Promise been awaited, the result would have been the wrapped manager.) -/
def callGetState (_p : JsPromise (Option ManagerState)) :
    Except String ManagerState :=
  Except.error "debate.getState is not a function"

inductive TrpcCode where
  | NOT_FOUND
  | INTERNAL_SERVER_ERROR
deriving DecidableEq

structure TrpcError where
  code : TrpcCode
  message : String
deriving DecidableEq

/-- The object returned by `getDebateStatus` (router lines 84-95); the
`scoringAnimation` UI descriptor is omitted. -/
structure StatusPayload where
  status : Status
  messages : List Turn
  judges : List JudgeResult
  winner : Option Side
  errorMessage : Option String
  streamingText : String
  isThinking : Bool
  currentSpeaker : Option Side
  currentStreamingSide : Option Side
deriving DecidableEq

/-- `getProgress().currentSpeaker` (manager.ts line 492): pro on even
transcript length, con on odd. -/
def getProgressCurrentSpeaker (s : DebateState) : Option Side :=
  if s.messages.length % 2 = 0 then some Side.pro else some Side.con

/-- The payload the handler builds from `getState()` and `getProgress()`. -/
def payloadOf (m : ManagerState) : StatusPayload where
  status := m.state.status
  messages := m.state.messages
  judges := m.state.judges
  winner := m.state.winner
  errorMessage := m.state.errorMessage
  streamingText := m.streamingText
  isThinking := m.isThinking
  currentSpeaker := getProgressCurrentSpeaker m.state
  currentStreamingSide := m.currentStreamingSide

/-- The TRPCError thrown by the dead not-found branch. -/
def debateNotFoundError : TrpcError where
  code := TrpcCode.NOT_FOUND
  message := "Debate not found"

/-- The TRPCError the catch block wraps every non-TRPC exception into. -/
def statusFetchFailedError : TrpcError where
  code := TrpcCode.INTERNAL_SERVER_ERROR
  message := "Failed to get debate status"

/-- The `getDebateStatus` query handler (router lines 69-106).
`lookupResult` is what `store.getDebate(debateId)` would eventually resolve
to (the recovered manager, or none when the id is unknown and
unrecoverable); the handler, however, binds the Promise itself — line 72
has no `await` — so `debate` below is a `JsPromise`.  A thrown non-TRPC
error is wrapped by the catch into
`INTERNAL_SERVER_ERROR "Failed to get debate status"`. -/
def getDebateStatus (lookupResult : Option ManagerState) :
    Except TrpcError StatusPayload :=
  let debate : JsPromise (Option ManagerState) := { eventual := lookupResult }
  if promiseTruthy debate = false then
    Except.error debateNotFoundError
  else
    match callGetState debate with
    | Except.error _ => Except.error statusFetchFailedError
    | Except.ok mgr => Except.ok (payloadOf mgr)

/-! ## Concrete inputs used by witnesses and counterexamples -/

/-- A fixed parsed verdict: every category 80 for pro and 70 for con, with
matching composite totals. -/
def cexJudgeResult : JudgeResult where
  name := "J"
  scorePro := 80
  scoreCon := 70
  detailedPro := ⟨80, 80, 80, 80⟩
  detailedCon := ⟨70, 70, 70, 70⟩
  comment := "c"
  prosHighlights := []
  consHighlights := []
  suggestions := []
  scoreReasonsPro := ⟨"r", "r", "r", "r"⟩
  scoreReasonsCon := ⟨"r", "r", "r", "r"⟩
  overallComment := "o"
  recommendedWinner := none

/-- A valid configuration: 6 judges, 1 round. -/
def cexConfig : DebateConfig where
  proKey := "pk"
  conKey := "ck"
  judgeConfigs := List.replicate 6 { apiKey := "k", name := "J" }
  maxRounds := 1

/-- A five-judge configuration (invalid panel size). -/
def cexConfig5 : DebateConfig where
  proKey := "pk"
  conKey := "ck"
  judgeConfigs := List.replicate 5 { apiKey := "k", name := "J" }
  maxRounds := 1

/-- A generation oracle that always succeeds: pro says "P", con says "C". -/
def cexGen : GenOracle := fun side _ _ =>
  match side with
  | Side.pro => Except.ok "P"
  | Side.con => Except.ok "C"

/-- A generation oracle whose every call fails fatally. -/
def cexGenFail : GenOracle := fun _ _ _ => Except.error "boom"

/-- A judge oracle whose every attempt parses to `cexJudgeResult`. -/
def cexOracle : JudgeOracle := fun _ _ => Except.ok cexJudgeResult

/-- A judge oracle whose every attempt fails. -/
def cexOracleFail : JudgeOracle := fun _ _ => Except.error "judge down"

/-- The session state a fresh `DebateManager` starts from under
`cexConfig`. -/
def cexBaseState : DebateState where
  topic := "T"
  background := "B"
  status := Status.pending
  messages := []
  judges := []
  winner := none
  finalScores := none
  errorMessage := none
  config := cexConfig

/-- The manager produced by `new DebateManager("T", "B", cexConfig)`. -/
def cexManager : ManagerState where
  state := cexBaseState
  judgeAgents := List.replicate 6 { apiKey := "k", name := "J" }
  maxRounds := 1
  currentRound := 0
  isRunning := false
  debatePromiseActive := false
  errorMessageField := none
  streamingText := ""
  currentStreamingSide := none
  isThinking := false

/-- The concrete run's state after `start` marks it in progress. -/
def cexS0 : DebateState := { cexBaseState with status := Status.in_progress }

/-- ... after pro's turn of the single round. -/
def cexS1 : DebateState :=
  { cexS0 with messages := [{ side := Side.pro, message := "P" }] }

/-- ... after con's turn of the single round. -/
def cexS2 : DebateState :=
  { cexS0 with messages := [{ side := Side.pro, message := "P" },
    { side := Side.con, message := "C" }] }

/-- The 6 collected judge results of the concrete run. -/
def cexResults : List JudgeResult := List.replicate 6 cexJudgeResult

/-- ... after `this.state.judges = judgeResults`. -/
def cexSJ1 : DebateState := { cexS2 with judges := cexResults }

/-- ... after `finalScores` and `winner` are assigned (still before the
`completed` transition). -/
def cexSJ2 : DebateState := setFinalScoresAndWinner cexSJ1

/-- ... the final completed state. -/
def cexSDone : DebateState := { cexSJ2 with status := Status.completed }

/-! ## Helper lemmas -/

/-- Transcript fragments produced by complete rounds: pro/con pairs. -/
inductive IsRoundList : List Turn → Prop
  | nil : IsRoundList []
  | cons (p c : String) (rest : List Turn) (h : IsRoundList rest) :
      IsRoundList ({ side := Side.pro, message := p } ::
        { side := Side.con, message := c } :: rest)

theorem IsRoundList.alternating {l : List Turn} (hl : IsRoundList l) :
    ∀ (i : ℕ) (h : i < l.length),
      (l.get ⟨i, h⟩).side = if i % 2 = 0 then Side.pro else Side.con := by
  induction hl with
  | nil => intro i h; simp at h
  | cons p c rest _hrest ih =>
      intro i h
      match i with
      | 0 => simp
      | 1 => simp
      | (j + 2) =>
          have hj : j < rest.length := by simpa [Nat.succ_lt_succ_iff] using h
          have : ((j + 2) % 2) = j % 2 := by omega
          simpa [List.get, this] using ih j hj

theorem IsRoundList.even_length {l : List Turn} (hl : IsRoundList l) :
    ∃ k, l.length = 2 * k := by
  induction hl with
  | nil => exact ⟨0, rfl⟩
  | cons p c rest _hrest ih =>
      obtain ⟨k, hk⟩ := ih
      exact ⟨k + 1, by simp [hk]; omega⟩

/-- When every generation call succeeds, the round loop makes exactly `fuel`
more rounds: it appends `2 * fuel` turns in complete pro/con pairs, advances
the counter by exactly `fuel`, and touches no other field. -/
theorem runRoundsGo_spec (gen : GenOracle)
    (hgen : ∀ sd t ms, ∃ txt, gen sd t ms = Except.ok txt) :
    ∀ (fuel r : ℕ) (s : DebateState), ∃ tr extra,
      runRoundsGo gen fuel r s =
        (tr, r + fuel, Except.ok { s with messages := s.messages ++ extra }) ∧
      IsRoundList extra ∧ extra.length = 2 * fuel := by
  intro fuel
  induction fuel with
  | zero =>
      intro r s
      exact ⟨[], [], by simp [runRoundsGo], IsRoundList.nil, rfl⟩
  | succ n ih =>
      intro r s
      obtain ⟨p, hp⟩ := hgen Side.pro s.topic s.messages
      obtain ⟨c, hc⟩ := hgen Side.con s.topic (addMessage s Side.pro p).messages
      obtain ⟨tr, extra, hrun, hround, hlen⟩ :=
        ih (r + 1) (addMessage (addMessage s Side.pro p) Side.con c)
      refine ⟨[s, addMessage s Side.pro p, addMessage s Side.pro p,
          addMessage (addMessage s Side.pro p) Side.con c,
          addMessage (addMessage s Side.pro p) Side.con c,
          addMessage (addMessage s Side.pro p) Side.con c] ++ tr,
        { side := Side.pro, message := p } ::
          { side := Side.con, message := c } :: extra,
        ?_, IsRoundList.cons p c extra hround, by simp [hlen]; omega⟩
      simp only [runRoundsGo, runDebateRound, hp, hc, hrun]
      simp [addMessage, List.append_assoc]
      omega

theorem evaluate_ok (name : String) (body : ℕ → Except String JudgeResult) :
    ∃ r, evaluate name body = Except.ok r := by
  cases h0 : body 0 with
  | ok r0 => exact ⟨r0, by simp [evaluate, evaluateFrom, h0]⟩
  | error e0 =>
      cases h1 : body 1 with
      | ok r1 => exact ⟨r1, by simp [evaluate, evaluateFrom, h0, h1]⟩
      | error e1 =>
          cases h2 : body 2 with
          | ok r2 => exact ⟨r2, by simp [evaluate, evaluateFrom, h0, h1, h2]⟩
          | error e2 =>
              exact ⟨defaultJudgeResult name e2,
                by simp [evaluate, evaluateFrom, h0, h1, h2]⟩

theorem collectJudgeResults_ok (body : ℕ → ℕ → Except String JudgeResult) :
    ∀ (cfgs : List JudgeConfig) (i : ℕ), ∃ rs,
      collectJudgeResults body i cfgs = Except.ok rs ∧ rs.length = cfgs.length := by
  intro cfgs
  induction cfgs with
  | nil => exact fun i => ⟨[], rfl, rfl⟩
  | cons jc rest ih =>
      intro i
      obtain ⟨r, hr⟩ := evaluate_ok jc.name (body i)
      obtain ⟨rs, hrs, hlen⟩ := ih (i + 1)
      exact ⟨r :: rs, by simp [collectJudgeResults, hr, hrs], by simp [hlen]⟩

/-- `runJudging` always succeeds, storing the collected results and then the
final scores and winner. -/
theorem runJudging_ok (body : JudgeOracle) (s : DebateState) :
    ∃ results tr,
      runJudging body s =
        (tr, Except.ok (setFinalScoresAndWinner { s with judges := results })) ∧
      results.length = s.config.judgeConfigs.length := by
  obtain ⟨rs, hrs, hlen⟩ := collectJudgeResults_ok body s.config.judgeConfigs 0
  refine ⟨rs, List.replicate (1 + 3 * s.config.judgeConfigs.length) s ++
    List.replicate 11 { s with judges := rs } ++
    [setFinalScoresAndWinner { s with judges := rs },
     setFinalScoresAndWinner { s with judges := rs }], ?_, hlen⟩
  simp [runJudging, hrs]

/-- Shape of every snapshot the round phase can emit, relative to the state
`s` it started from: the same session with some transcript, either live or
marked failed by `setErrorStatus`. -/
def RoundsDerived (s x : DebateState) : Prop :=
  (∃ ms, x = { s with messages := ms }) ∨
  (∃ ms e, x = setErrorStatus { s with messages := ms } e)

/-- Shape of every snapshot any phase after `start` can emit, relative to the
in-progress state `s` the loop started from. -/
def StartDerived (s x : DebateState) : Prop :=
  (∃ ms, x = { s with messages := ms }) ∨
  (∃ ms e, x = setErrorStatus { s with messages := ms } e) ∨
  (∃ ms rs, x = { s with messages := ms, judges := rs }) ∨
  (∃ ms rs, x = setFinalScoresAndWinner { s with messages := ms, judges := rs }) ∨
  (∃ ms rs, x = { setFinalScoresAndWinner { s with messages := ms, judges := rs }
      with status := Status.completed })

theorem RoundsDerived.comp {s sN x : DebateState}
    (hms : ∃ ms, sN = { s with messages := ms }) (hx : RoundsDerived sN x) :
    RoundsDerived s x := by
  obtain ⟨ms, rfl⟩ := hms
  rcases hx with ⟨ms', hx⟩ | ⟨ms', e, hx⟩
  · exact Or.inl ⟨ms', hx⟩
  · exact Or.inr ⟨ms', e, hx⟩

theorem RoundsDerived.toStart {s x : DebateState} (h : RoundsDerived s x) :
    StartDerived s x := by
  rcases h with h | h
  · exact Or.inl h
  · exact Or.inr (Or.inl h)

theorem runDebateRound_char (gen : GenOracle) (s : DebateState) :
    (∀ x ∈ (runDebateRound gen s).1, RoundsDerived s x) ∧
    (∀ sF, (runDebateRound gen s).2 = Except.ok sF →
      ∃ ms, sF = { s with messages := ms }) ∧
    (∀ e sE, (runDebateRound gen s).2 = Except.error (e, sE) →
      ∃ ms, sE = setErrorStatus { s with messages := ms } e) := by
  cases h1 : gen Side.pro s.topic s.messages with
  | error e0 =>
      refine ⟨?_, ?_, ?_⟩
      · intro x hx
        simp only [runDebateRound, h1, List.mem_cons, List.not_mem_nil,
          or_false] at hx
        rcases hx with h | h | h
        · rw [h]; exact Or.inl ⟨s.messages, rfl⟩
        · rw [h]; exact Or.inr ⟨s.messages, e0, rfl⟩
        · rw [h]; exact Or.inr ⟨s.messages, e0, rfl⟩
      · intro sF h
        simp [runDebateRound, h1] at h
      · intro e sE h
        simp only [runDebateRound, h1, Except.error.injEq, Prod.mk.injEq] at h
        obtain ⟨he, hsE⟩ := h
        subst he; subst hsE
        exact ⟨s.messages, rfl⟩
  | ok p =>
      cases h2 : gen Side.con s.topic (addMessage s Side.pro p).messages with
      | error e0 =>
          refine ⟨?_, ?_, ?_⟩
          · intro x hx
            simp only [runDebateRound, h1, h2, List.mem_cons, List.not_mem_nil,
              or_false] at hx
            rcases hx with h | h | h | h | h
            · rw [h]; exact Or.inl ⟨s.messages, rfl⟩
            · rw [h]; exact Or.inl ⟨(addMessage s Side.pro p).messages, rfl⟩
            · rw [h]; exact Or.inl ⟨(addMessage s Side.pro p).messages, rfl⟩
            · rw [h]; exact Or.inr ⟨(addMessage s Side.pro p).messages, e0, rfl⟩
            · rw [h]; exact Or.inr ⟨(addMessage s Side.pro p).messages, e0, rfl⟩
          · intro sF h
            simp [runDebateRound, h1, h2] at h
          · intro e sE h
            simp only [runDebateRound, h1, h2, Except.error.injEq,
              Prod.mk.injEq] at h
            obtain ⟨he, hsE⟩ := h
            subst he; subst hsE
            exact ⟨(addMessage s Side.pro p).messages, rfl⟩
      | ok c =>
          refine ⟨?_, ?_, ?_⟩
          · intro x hx
            simp only [runDebateRound, h1, h2, List.mem_cons, List.not_mem_nil,
              or_false] at hx
            rcases hx with h | h | h | h | h | h
            · rw [h]; exact Or.inl ⟨s.messages, rfl⟩
            · rw [h]; exact Or.inl ⟨(addMessage s Side.pro p).messages, rfl⟩
            · rw [h]; exact Or.inl ⟨(addMessage s Side.pro p).messages, rfl⟩
            · rw [h]; exact Or.inl
                ⟨(addMessage (addMessage s Side.pro p) Side.con c).messages, rfl⟩
            · rw [h]; exact Or.inl
                ⟨(addMessage (addMessage s Side.pro p) Side.con c).messages, rfl⟩
            · rw [h]; exact Or.inl
                ⟨(addMessage (addMessage s Side.pro p) Side.con c).messages, rfl⟩
          · intro sF h
            simp only [runDebateRound, h1, h2, Except.ok.injEq] at h
            exact ⟨(addMessage (addMessage s Side.pro p) Side.con c).messages,
              h.symm⟩
          · intro e sE h
            simp [runDebateRound, h1, h2] at h

theorem runRoundsGo_char (gen : GenOracle) :
    ∀ (fuel r : ℕ) (s : DebateState),
    (∀ x ∈ (runRoundsGo gen fuel r s).1, RoundsDerived s x) ∧
    (∀ sF, (runRoundsGo gen fuel r s).2.2 = Except.ok sF →
      ∃ ms, sF = { s with messages := ms }) ∧
    (∀ e sE, (runRoundsGo gen fuel r s).2.2 = Except.error (e, sE) →
      ∃ ms, sE = setErrorStatus { s with messages := ms } e) := by
  intro fuel
  induction fuel with
  | zero =>
      intro r s
      refine ⟨by simp [runRoundsGo], ?_, by simp [runRoundsGo]⟩
      intro sF h
      simp only [runRoundsGo, Except.ok.injEq] at h
      exact ⟨s.messages, h.symm⟩
  | succ n ih =>
      intro r s
      obtain ⟨hR1, hR2, hR3⟩ := runDebateRound_char gen s
      rcases hround : runDebateRound gen s with ⟨tr, out⟩
      rw [hround] at hR1 hR2 hR3
      cases out with
      | error es =>
          rcases es with ⟨e, sE⟩
          refine ⟨?_, ?_, ?_⟩
          · intro x hx
            simp only [runRoundsGo, hround] at hx
            exact hR1 x hx
          · intro sF h
            simp [runRoundsGo, hround] at h
          · intro e' sE' h
            simp only [runRoundsGo, hround, Except.error.injEq,
              Prod.mk.injEq] at h
            obtain ⟨he, hsE⟩ := h
            subst he; subst hsE
            exact hR3 e sE rfl
      | ok sNext =>
          obtain ⟨ihx, ihok, iherr⟩ := ih (r + 1) sNext
          have hN : ∃ ms, sNext = { s with messages := ms } := hR2 sNext rfl
          refine ⟨?_, ?_, ?_⟩
          · intro x hx
            simp only [runRoundsGo, hround, List.mem_append] at hx
            rcases hx with hx | hx
            · exact hR1 x hx
            · exact RoundsDerived.comp hN (ihx x hx)
          · intro sF h
            simp only [runRoundsGo, hround] at h
            obtain ⟨ms', hF⟩ := ihok sF h
            obtain ⟨ms, rfl⟩ := hN
            exact ⟨ms', hF⟩
          · intro e sE h
            simp only [runRoundsGo, hround] at h
            obtain ⟨ms', hE⟩ := iherr e sE h
            obtain ⟨ms, rfl⟩ := hN
            exact ⟨ms', hE⟩

theorem runJudging_char (body : JudgeOracle) (s : DebateState) :
    (∀ x ∈ (runJudging body s).1,
      (∃ rs, x = { s with judges := rs }) ∨
      (∃ rs, x = setFinalScoresAndWinner { s with judges := rs })) ∧
    (∀ sF, (runJudging body s).2 = Except.ok sF →
      ∃ rs, sF = setFinalScoresAndWinner { s with judges := rs }) ∧
    (∀ e sE, (runJudging body s).2 = Except.error (e, sE) → sE = s) := by
  cases hc : collectJudgeResults body 0 s.config.judgeConfigs with
  | error e0 =>
      refine ⟨?_, ?_, ?_⟩
      · intro x hx
        simp only [runJudging, hc, List.mem_cons, List.not_mem_nil,
          or_false] at hx
        rw [hx]
        exact Or.inl ⟨s.judges, rfl⟩
      · intro sF h
        simp [runJudging, hc] at h
      · intro e sE h
        simp only [runJudging, hc, Except.error.injEq, Prod.mk.injEq] at h
        exact h.2.symm
  | ok rs =>
      refine ⟨?_, ?_, ?_⟩
      · intro x hx
        simp only [runJudging, hc, List.mem_append, List.mem_replicate,
          List.mem_cons, List.not_mem_nil, or_false] at hx
        rcases hx with (⟨-, h⟩ | ⟨-, h⟩) | h | h
        · rw [h]; exact Or.inl ⟨s.judges, rfl⟩
        · rw [h]; exact Or.inl ⟨rs, rfl⟩
        · rw [h]; exact Or.inr ⟨rs, rfl⟩
        · rw [h]; exact Or.inr ⟨rs, rfl⟩
      · intro sF h
        simp only [runJudging, hc, Except.ok.injEq] at h
        exact ⟨rs, h.symm⟩
      · intro e sE h
        simp [runJudging, hc] at h

theorem runDebateLoop_char (gen : GenOracle) (body : JudgeOracle)
    (maxR r : ℕ) (s : DebateState) :
    (∀ x ∈ (runDebateLoop gen body maxR r s).1, StartDerived s x) ∧
    (∀ sF, (runDebateLoop gen body maxR r s).2.2 = Except.ok sF →
      ∃ ms rs, sF = { setFinalScoresAndWinner { s with messages := ms, judges := rs }
        with status := Status.completed }) ∧
    (∀ e sE, (runDebateLoop gen body maxR r s).2.2 = Except.error (e, sE) →
      ∃ ms, sE = setErrorStatus { s with messages := ms } e) := by
  obtain ⟨hG1, hG2, hG3⟩ := runRoundsGo_char gen (maxR - r) r s
  rcases hrounds : runRoundsGo gen (maxR - r) r s with ⟨tr, rOut, out⟩
  rw [hrounds] at hG1 hG2 hG3
  cases out with
  | error es =>
      rcases es with ⟨e, sE⟩
      obtain ⟨ms, hE⟩ := hG3 e sE rfl
      refine ⟨?_, ?_, ?_⟩
      · intro x hx
        simp only [runDebateLoop, runRoundsFrom, hrounds, List.mem_append,
          List.mem_cons, List.not_mem_nil, or_false] at hx
        rcases hx with hx | rfl | rfl
        · exact (hG1 x hx).toStart
        · subst hE; exact Or.inr (Or.inl ⟨ms, e, rfl⟩)
        · subst hE; exact Or.inr (Or.inl ⟨ms, e, rfl⟩)
      · intro sF h
        simp [runDebateLoop, runRoundsFrom, hrounds] at h
      · intro e' sE' h
        simp only [runDebateLoop, runRoundsFrom, hrounds, Except.error.injEq,
          Prod.mk.injEq] at h
        obtain ⟨he, hsE⟩ := h
        subst he; subst hsE; subst hE
        exact ⟨ms, rfl⟩
  | ok sR =>
      obtain ⟨ms, hR⟩ := hG2 sR rfl
      obtain ⟨hJ1, hJ2, hJ3⟩ := runJudging_char body sR
      rcases hjudge : runJudging body sR with ⟨trJ, outJ⟩
      rw [hjudge] at hJ1 hJ2 hJ3
      cases outJ with
      | error es =>
          rcases es with ⟨e, sE⟩
          have hsE : sE = sR := hJ3 e sE rfl
          refine ⟨?_, ?_, ?_⟩
          · intro x hx
            simp only [runDebateLoop, runRoundsFrom, hrounds, hjudge,
              List.mem_append, List.mem_cons, List.not_mem_nil,
              or_false] at hx
            rcases hx with (hx | hx) | rfl | rfl
            · exact (hG1 x hx).toStart
            · rcases hJ1 x hx with ⟨rs, rfl⟩ | ⟨rs, rfl⟩
              · subst hR; exact Or.inr (Or.inr (Or.inl ⟨ms, rs, rfl⟩))
              · subst hR; exact Or.inr (Or.inr (Or.inr (Or.inl ⟨ms, rs, rfl⟩)))
            · subst hsE; subst hR; exact Or.inr (Or.inl ⟨ms, e, rfl⟩)
            · subst hsE; subst hR; exact Or.inr (Or.inl ⟨ms, e, rfl⟩)
          · intro sF h
            simp [runDebateLoop, runRoundsFrom, hrounds, hjudge] at h
          · intro e' sE' h
            simp only [runDebateLoop, runRoundsFrom, hrounds, hjudge,
              Except.error.injEq, Prod.mk.injEq] at h
            obtain ⟨he, hsE'⟩ := h
            subst he; subst hsE'; subst hsE; subst hR
            exact ⟨ms, rfl⟩
      | ok sJ =>
          obtain ⟨rs, hJ⟩ := hJ2 sJ rfl
          refine ⟨?_, ?_, ?_⟩
          · intro x hx
            simp only [runDebateLoop, runRoundsFrom, hrounds, hjudge,
              List.mem_append, List.mem_cons, List.not_mem_nil,
              or_false] at hx
            rcases hx with (hx | hx) | rfl
            · exact (hG1 x hx).toStart
            · rcases hJ1 x hx with ⟨rs', rfl⟩ | ⟨rs', rfl⟩
              · subst hR
                exact Or.inr (Or.inr (Or.inl ⟨ms, rs', rfl⟩))
              · subst hR
                exact Or.inr (Or.inr (Or.inr (Or.inl ⟨ms, rs', rfl⟩)))
            · subst hJ; subst hR
              exact Or.inr (Or.inr (Or.inr (Or.inr ⟨ms, rs, rfl⟩)))
          · intro sF h
            simp only [runDebateLoop, runRoundsFrom, hrounds, hjudge,
              Except.ok.injEq] at h
            subst h; subst hJ; subst hR
            exact ⟨ms, rs, rfl⟩
          · intro e sE h
            simp [runDebateLoop, runRoundsFrom, hrounds, hjudge] at h

theorem start_trace_char (gen : GenOracle) (body : JudgeOracle)
    (m : ManagerState) :
    ∀ x ∈ (start gen body m).trace,
      StartDerived { m.state with status := Status.in_progress } x := by
  intro x hx
  by_cases hrun : m.isRunning
  · simp [start, hrun] at hx
  · obtain ⟨hL1, hL2, hL3⟩ := runDebateLoop_char gen body m.maxRounds
      m.currentRound { m.state with status := Status.in_progress }
    rcases hloop : runDebateLoop gen body m.maxRounds m.currentRound
      { m.state with status := Status.in_progress } with ⟨tr, r, out⟩
    rw [hloop] at hL1 hL2 hL3
    cases out with
    | error es =>
        rcases es with ⟨e, sE⟩
        obtain ⟨ms, hE⟩ := hL3 e sE rfl
        simp only [start, hrun, Bool.false_eq_true, if_false, hloop,
          List.mem_cons, List.mem_append, List.not_mem_nil, or_false] at hx
        rcases hx with (h | hx) | h | h
        · rw [h]; exact Or.inl ⟨m.state.messages, rfl⟩
        · exact hL1 x hx
        · rw [h, hE]; exact Or.inr (Or.inl ⟨ms, e, rfl⟩)
        · rw [h, hE]; exact Or.inr (Or.inl ⟨ms, e, rfl⟩)
    | ok sDone =>
        simp only [start, hrun, Bool.false_eq_true, if_false, hloop,
          List.mem_cons] at hx
        rcases hx with h | hx
        · rw [h]; exact Or.inl ⟨m.state.messages, rfl⟩
        · exact hL1 x hx

/-- The session state a fresh `DebateManager` constructor builds. -/
def freshState (topic background : String) (cfg : DebateConfig) : DebateState where
  topic := topic
  background := background
  status := Status.pending
  messages := []
  judges := []
  winner := none
  finalScores := none
  errorMessage := none
  config := cfg

theorem mkDebateManager_fields {topic background : String} {cfg : DebateConfig}
    {m : ManagerState}
    (hm : mkDebateManager topic background cfg = Except.ok m) :
    m.state = freshState topic background cfg ∧
    m.maxRounds = cfg.maxRounds ∧ m.currentRound = 0 ∧
    m.isRunning = false := by
  by_cases h6 : cfg.judgeConfigs.length = 6
  · simp only [mkDebateManager, initializeAgents, h6, ne_eq,
      not_true_eq_false, if_false, Except.ok.injEq] at hm
    rw [← hm]
    exact ⟨rfl, rfl, rfl, rfl⟩
  · simp [mkDebateManager, initializeAgents, h6] at hm

/-- The state a successful run ends in, given the state `s` the loop was
entered with, the turns `extra` appended by the remaining rounds, and the
collected judge `results`. -/
def completedStateOf (s : DebateState) (extra : List Turn)
    (results : List JudgeResult) : DebateState :=
  let afterRounds := { s with messages := s.messages ++ extra }
  let judged := setFinalScoresAndWinner { afterRounds with judges := results }
  { judged with status := Status.completed }

/-- With every generation call succeeding, `runDebateLoop` completes:
rounds append complete pro/con pairs, judging collects one result per
configured judge, and the final state is `completedStateOf`. -/
theorem runDebateLoop_success (gen : GenOracle) (body : JudgeOracle)
    (maxR r : ℕ) (s : DebateState)
    (hgen : ∀ sd t ms, ∃ txt, gen sd t ms = Except.ok txt) :
    ∃ extra results trL,
      IsRoundList extra ∧ extra.length = 2 * (maxR - r) ∧
      results.length = s.config.judgeConfigs.length ∧
      runDebateLoop gen body maxR r s =
        (trL, r + (maxR - r), Except.ok (completedStateOf s extra results)) := by
  obtain ⟨tr, extra, hrounds, hlist, hlen⟩ :=
    runRoundsGo_spec gen hgen (maxR - r) r s
  obtain ⟨results, trJ, hjudge, hreslen⟩ :=
    runJudging_ok body { s with messages := s.messages ++ extra }
  refine ⟨extra, results,
    tr ++ (trJ ++ [completedStateOf s extra results]), hlist, hlen, hreslen, ?_⟩
  simp only [runDebateLoop, runRoundsFrom, hrounds, hjudge]
  simp [completedStateOf]

/-- When every generation call succeeds and `start` is invoked on an idle
manager, the debate completes: all remaining rounds are appended as pro/con
pairs, all judges are collected, the final scores and winner are derived
from the collected results, and the session ends `completed`. -/
theorem start_success_spec (gen : GenOracle) (body : JudgeOracle)
    (m : ManagerState)
    (hgen : ∀ sd t ms, ∃ txt, gen sd t ms = Except.ok txt)
    (hrun : m.isRunning = false) :
    ∃ extra results,
      IsRoundList extra ∧
      extra.length = 2 * (m.maxRounds - m.currentRound) ∧
      (start gen body m).result = Except.ok () ∧
      (start gen body m).final.state.messages = m.state.messages ++ extra ∧
      (start gen body m).final.state.status = Status.completed ∧
      (start gen body m).final.currentRound =
        m.currentRound + (m.maxRounds - m.currentRound) ∧
      (start gen body m).final.state.judges = results ∧
      results.length = m.state.config.judgeConfigs.length ∧
      (start gen body m).final.state.winner =
        determineWinner (calculateFinalScore (results.map fun j => j.scorePro))
          (calculateFinalScore (results.map fun j => j.scoreCon)) := by
  obtain ⟨extra, results, trL, hlist, hlen, hreslen, hloop⟩ :=
    runDebateLoop_success gen body m.maxRounds m.currentRound
      { m.state with status := Status.in_progress } hgen
  have hstart : start gen body m =
      { trace := { m.state with status := Status.in_progress } :: trL,
        result := Except.ok (),
        final := { m with
          state := completedStateOf { m.state with status := Status.in_progress }
            extra results,
          currentRound := m.currentRound + (m.maxRounds - m.currentRound),
          isRunning := false, debatePromiseActive := false } } := by
    simp only [start, hrun, Bool.false_eq_true, if_false, hloop]
  refine ⟨extra, results, hlist, hlen, ?_, ?_, ?_, ?_, ?_, hreslen, ?_⟩
  · rw [hstart]
  · rw [hstart]; rfl
  · rw [hstart]; rfl
  · rw [hstart]
  · rw [hstart]; rfl
  · rw [hstart]; rfl

/-! ## The claims -/

/-- C1: trimmed-mean aggregation.  `calculateFinalScore` on the spec's
example `[40, 60, 70, 80, 90, 100]` yields exactly 75; in general it sorts
the input ascending and averages it with the single highest and single
lowest value discarded (for 6 judges, 4 values remain); and `runJudging`'s
final-score block applies this same rule independently to the 6 judges' own
values for each of the four categories per side and to the 6 judges' own
composite totals for the overall score — no recomputation from re-trimmed
category scores. -/
theorem C1_trimmed_mean_aggregation :
    calculateFinalScore [40, 60, 70, 80, 90, 100] = 75 ∧
    (∀ scores : List ℚ, ∃ sorted : List ℚ,
      scores.Perm sorted ∧ sorted.Sorted (· ≤ ·) ∧
      calculateFinalScore scores =
        sorted.dropLast.tail.sum / (sorted.dropLast.tail.length : ℚ)) ∧
    (∀ scores : List ℚ, scores.length = 6 →
      ((scores.insertionSort (· ≤ ·)).dropLast.tail).length = 4) ∧
    (∀ s1 : DebateState,
      (setFinalScoresAndWinner s1).finalScores = some {
        pro := calculateFinalScore (s1.judges.map fun j => j.scorePro),
        con := calculateFinalScore (s1.judges.map fun j => j.scoreCon),
        detailsPro :=
          ⟨calculateFinalScore (s1.judges.map fun j => j.detailedPro.logic),
           calculateFinalScore (s1.judges.map fun j => j.detailedPro.evidence),
           calculateFinalScore (s1.judges.map fun j => j.detailedPro.rebuttal),
           calculateFinalScore (s1.judges.map fun j => j.detailedPro.expression)⟩,
        detailsCon :=
          ⟨calculateFinalScore (s1.judges.map fun j => j.detailedCon.logic),
           calculateFinalScore (s1.judges.map fun j => j.detailedCon.evidence),
           calculateFinalScore (s1.judges.map fun j => j.detailedCon.rebuttal),
           calculateFinalScore (s1.judges.map fun j => j.detailedCon.expression)⟩,
        eliminatedPro := ⟨jsMax (s1.judges.map fun j => j.scorePro),
          jsMin (s1.judges.map fun j => j.scorePro)⟩,
        eliminatedCon := ⟨jsMax (s1.judges.map fun j => j.scoreCon),
          jsMin (s1.judges.map fun j => j.scoreCon)⟩ }) := by
  refine ⟨?_, ?_, ?_, ?_⟩
  · norm_num [calculateFinalScore, List.insertionSort, List.orderedInsert]
  · intro scores
    exact ⟨scores.insertionSort (· ≤ ·),
      (List.perm_insertionSort _ _).symm,
      List.sorted_insertionSort _ _, rfl⟩
  · intro scores h6
    have hs : (scores.insertionSort (· ≤ ·)).length = 6 := by
      rw [List.length_insertionSort, h6]
    simp [List.length_tail, List.length_dropLast, hs]
  · intro s1
    rfl

/-- C1 witness: the general statements applied at the spec's example list. -/
theorem C1_trimmed_mean_aggregation_witness :
    ([(40 : ℚ), 60, 70, 80, 90, 100].length = 6) ∧
    (([(40 : ℚ), 60, 70, 80, 90, 100].insertionSort (· ≤ ·)).dropLast.tail).length
      = 4 :=
  ⟨rfl, C1_trimmed_mean_aggregation.2.2.1 [40, 60, 70, 80, 90, 100] rfl⟩

/-- C3: a judge's `evaluate` never raises: for every oracle — including one
whose every attempt fails with a transport error or unparseable response —
it returns some fully-populated `JudgeResult`; when all 3 attempts fail it
is the default result, whose eight category scores are all the neutral 75,
whose composite totals are 75 and whose rationale text explains the
failure; consequently `runJudging` under a 6-judge configuration always
completes with exactly 6 judge results. -/
theorem C3_judge_degrades_to_default :
    (∀ name body, ∃ r, evaluate name body = Except.ok r) ∧
    (∀ (name : String) (body : ℕ → Except String JudgeResult) (e0 e1 e2 : String),
      body 0 = Except.error e0 → body 1 = Except.error e1 →
      body 2 = Except.error e2 →
      evaluate name body = Except.ok (defaultJudgeResult name e2)) ∧
    (∀ name e,
      (defaultJudgeResult name e).scorePro = 75 ∧
      (defaultJudgeResult name e).scoreCon = 75 ∧
      (defaultJudgeResult name e).detailedPro = ⟨75, 75, 75, 75⟩ ∧
      (defaultJudgeResult name e).detailedCon = ⟨75, 75, 75, 75⟩ ∧
      (defaultJudgeResult name e).overallComment = "评分过程中遇到技术问题：" ++ e ∧
      (defaultJudgeResult name e).scoreReasonsPro = failureReasons e ∧
      (defaultJudgeResult name e).scoreReasonsCon = failureReasons e) ∧
    (∀ (body : JudgeOracle) (s : DebateState),
      s.config.judgeConfigs.length = 6 →
      ∃ results tr, runJudging body s =
        (tr, Except.ok (setFinalScoresAndWinner { s with judges := results })) ∧
        results.length = 6) := by
  refine ⟨evaluate_ok, ?_, ?_, ?_⟩
  · intro name body e0 e1 e2 h0 h1 h2
    simp [evaluate, evaluateFrom, h0, h1, h2]
  · intro name e
    exact ⟨rfl, rfl, rfl, rfl, rfl, rfl, rfl⟩
  · intro body s h6
    obtain ⟨results, tr, hj, hlen⟩ := runJudging_ok body s
    exact ⟨results, tr, hj, by rw [hlen, h6]⟩

/-- C3 witness: a judge whose every attempt fails degrades to the default
75-score result, and judging with an all-failing panel still yields 6
results. -/
theorem C3_judge_degrades_to_default_witness :
    evaluate "J" (fun _ => Except.error "judge down") =
      Except.ok (defaultJudgeResult "J" "judge down") ∧
    ∃ results tr, runJudging cexOracleFail cexBaseState =
      (tr, Except.ok (setFinalScoresAndWinner
        { cexBaseState with judges := results })) ∧
      results.length = 6 :=
  ⟨C3_judge_degrades_to_default.2.1 "J" (fun _ => Except.error "judge down")
      "judge down" "judge down" "judge down" rfl rfl rfl,
   C3_judge_degrades_to_default.2.2.2 cexOracleFail cexBaseState rfl⟩

/-- C2: with every generation call succeeding, a run from a freshly
constructed manager with `maxRounds ∈ [1, 50]` completes with exactly
`2 × maxRounds` turns produced by the round loop before judging begins,
strictly alternating with pro on even indices and con on odd indices; the
round counter ends at exactly `maxRounds` (it is incremented once per
completed round, after both sides have spoken), and judging does not change
the transcript. -/
theorem C2_round_structure (gen : GenOracle) (body : JudgeOracle)
    (topic background : String) (cfg : DebateConfig) (m : ManagerState)
    (hgen : ∀ sd t ms, ∃ txt, gen sd t ms = Except.ok txt)
    (hm : mkDebateManager topic background cfg = Except.ok m)
    (h1 : 1 ≤ cfg.maxRounds) (h50 : cfg.maxRounds ≤ 50) :
    (start gen body m).result = Except.ok () ∧
    (start gen body m).final.state.messages.length = 2 * cfg.maxRounds ∧
    (∀ (i : ℕ) (hi : i < (start gen body m).final.state.messages.length),
      ((start gen body m).final.state.messages.get ⟨i, hi⟩).side =
        if i % 2 = 0 then Side.pro else Side.con) ∧
    (start gen body m).final.currentRound = cfg.maxRounds ∧
    (start gen body m).final.state.status = Status.completed := by
  obtain ⟨hst, hmax, hcur, hrunning⟩ := mkDebateManager_fields hm
  obtain ⟨extra, results, hlist, hlen, hres, hmsgs, hstatus, hround, -, -, -⟩ :=
    start_success_spec gen body m hgen hrunning
  have hmessages0 : m.state.messages = [] := by rw [hst]; rfl
  have hextra : (start gen body m).final.state.messages = extra := by
    rw [hmsgs, hmessages0, List.nil_append]
  refine ⟨hres, ?_, ?_, ?_, hstatus⟩
  · rw [hextra, hlen, hmax, hcur]
    omega
  · intro i hi
    revert hi
    rw [hextra]
    intro hi
    exact hlist.alternating i hi
  · rw [hround, hcur, hmax]
    omega

/-- The persisted-snapshot trace of the concrete one-round run, computed:
the in-progress and per-turn snapshots, the 19 progress snapshots of the
judge loop, the 11 calculating-final snapshots (judge results already
stored, status still in progress), the two showing-winner snapshots (winner
already assigned, status still in progress), and the completed state. -/
theorem cex_trace_eq : (start cexGen cexOracle cexManager).trace =
    [cexS0, cexS0, cexS1, cexS1, cexS2, cexS2, cexS2] ++
      List.replicate 19 cexS2 ++ List.replicate 11 cexSJ1 ++
      [cexSJ2, cexSJ2, cexSDone] := rfl

theorem cexSJ2_winner : cexSJ2.winner = some Side.pro := by
  norm_num [cexSJ2, setFinalScoresAndWinner, determineWinner,
    calculateFinalScore, List.insertionSort, List.orderedInsert, cexSJ1,
    cexResults, cexJudgeResult]

theorem cexSJ2_mem : cexSJ2 ∈ (start cexGen cexOracle cexManager).trace := by
  rw [cex_trace_eq]
  simp

theorem cexSJ1_mem : cexSJ1 ∈ (start cexGen cexOracle cexManager).trace := by
  rw [cex_trace_eq]
  simp

theorem cexS0_mem : cexS0 ∈ (start cexGen cexOracle cexManager).trace := by
  rw [cex_trace_eq]
  simp

/-- C2 witness: the concrete one-round run with always-succeeding debaters
completes with 2 turns. -/
theorem C2_round_structure_witness :
    (start cexGen cexOracle cexManager).result = Except.ok () ∧
    (start cexGen cexOracle cexManager).final.state.messages.length = 2 ∧
    (start cexGen cexOracle cexManager).final.currentRound = 1 := by
  have h := C2_round_structure cexGen cexOracle "T" "B" cexConfig cexManager
    (fun sd t ms => by cases sd
                       · exact ⟨"P", rfl⟩
                       · exact ⟨"C", rfl⟩)
    rfl (by norm_num [cexConfig]) (by norm_num [cexConfig])
  exact ⟨h.1, h.2.1, h.2.2.2.1⟩

/-- C4 counterexample: in the concrete completed run, the showing-winner
progress snapshot — persisted by the store's progress observer — has
`winner = "pro"` while `status` is still `"in_progress"`, so winner is
non-null in a reachable, persisted session state whose status is not
`completed`. -/
theorem C4_counterexample_winner_before_completed :
    ∃ x ∈ (start cexGen cexOracle cexManager).trace,
      x.winner = some Side.pro ∧ x.winner ≠ none ∧
      x.status = Status.in_progress ∧ x.status ≠ Status.completed :=
  ⟨cexSJ2, cexSJ2_mem, cexSJ2_winner,
    by rw [cexSJ2_winner]; exact fun h => Option.noConfusion h,
    rfl, fun h => Status.noConfusion h⟩

/-- C4 amended: the winner is `determineWinner` of the two trimmed overall
totals — strictly greater wins, equality is a tie (`null`), exactly as the
claim's first half states; but `winner` being non-null does not imply
`status = completed`: in every snapshot of a run started from a manager
with no winner yet, a non-null winner means the status is `completed` or
the status is still `in_progress` with `finalScores` already computed (the
snapshots emitted between the winner assignment at the end of judging and
the completed transition). -/
theorem C4_amended_winner_rule :
    (∀ p c : ℚ,
      (p > c → determineWinner p c = some Side.pro) ∧
      (c > p → determineWinner p c = some Side.con) ∧
      (p = c → determineWinner p c = none)) ∧
    (∀ s1 : DebateState, (setFinalScoresAndWinner s1).winner =
      determineWinner (calculateFinalScore (s1.judges.map fun j => j.scorePro))
        (calculateFinalScore (s1.judges.map fun j => j.scoreCon))) ∧
    (∀ (gen : GenOracle) (body : JudgeOracle) (m : ManagerState),
      m.state.winner = none →
      ∀ x ∈ (start gen body m).trace, x.winner ≠ none →
        x.status = Status.completed ∨
        (x.status = Status.in_progress ∧ x.finalScores ≠ none)) := by
  refine ⟨?_, fun s1 => rfl, ?_⟩
  · intro p c
    refine ⟨?_, ?_, ?_⟩
    · intro h
      unfold determineWinner
      rw [if_pos h]
    · intro h
      unfold determineWinner
      rw [if_neg (lt_asymm h), if_pos h]
    · intro h
      subst h
      simp [determineWinner]
  · intro gen body m hw x hx hxw
    rcases start_trace_char gen body m x hx with
      ⟨ms, hxe⟩ | ⟨ms, e, hxe⟩ | ⟨ms, rs, hxe⟩ | ⟨ms, rs, hxe⟩ | ⟨ms, rs, hxe⟩
    · exact absurd (by rw [hxe]; exact hw) hxw
    · exact absurd (by rw [hxe]; exact hw) hxw
    · exact absurd (by rw [hxe]; exact hw) hxw
    · refine Or.inr ⟨by rw [hxe]; rfl, ?_⟩
      rw [hxe]
      simp [setFinalScoresAndWinner]
    · exact Or.inl (by rw [hxe])

/-- C4 witness: the amended statements at the concrete run. -/
theorem C4_amended_winner_rule_witness :
    determineWinner 80 70 = some Side.pro ∧
    (cexSJ2.status = Status.completed ∨
      (cexSJ2.status = Status.in_progress ∧ cexSJ2.finalScores ≠ none)) :=
  ⟨(C4_amended_winner_rule.1 80 70).1 (by norm_num),
   C4_amended_winner_rule.2.2 cexGen cexOracle cexManager rfl cexSJ2 cexSJ2_mem
     (by rw [cexSJ2_winner]; exact fun h => Option.noConfusion h)⟩

/-- C5: the `"judging"` status declared in the `DebateState.status` union
is never assigned — in every snapshot any run of `start` ever emits, the
status is not `judging` — yet the judge results are stored (all 6 of them)
while the status still reads `in_progress`, after which the session jumps
directly to `completed`. -/
theorem C5_judging_status_never_entered :
    (∀ (gen : GenOracle) (body : JudgeOracle) (m : ManagerState),
      ∀ x ∈ (start gen body m).trace, x.status ≠ Status.judging) ∧
    (∃ x ∈ (start cexGen cexOracle cexManager).trace,
      x.judges.length = 6 ∧ x.status = Status.in_progress) ∧
    (start cexGen cexOracle cexManager).final.state.status =
      Status.completed := by
  refine ⟨?_, ⟨cexSJ1, cexSJ1_mem, rfl, rfl⟩, rfl⟩
  intro gen body m x hx
  rcases start_trace_char gen body m x hx with
    ⟨ms, hxe⟩ | ⟨ms, e, hxe⟩ | ⟨ms, rs, hxe⟩ | ⟨ms, rs, hxe⟩ | ⟨ms, rs, hxe⟩
  · rw [hxe]; exact fun h => Status.noConfusion h
  · rw [hxe]; exact fun h => Status.noConfusion h
  · rw [hxe]; exact fun h => Status.noConfusion h
  · rw [hxe]; exact fun h => Status.noConfusion h
  · rw [hxe]; exact fun h => Status.noConfusion h

/-- C5 witness: the never-judging statement applied at the concrete run's
first emitted snapshot. -/
theorem C5_judging_status_never_entered_witness :
    cexS0.status ≠ Status.judging :=
  C5_judging_status_never_entered.1 cexGen cexOracle cexManager cexS0 cexS0_mem

/-- C6: `restoreState` on a persisted session (one whose `errorMessage` is
non-null only in the `error` state — the first conjunct shows every
snapshot a run persists satisfies this) derives the round index as
`⌊messages.length / 2⌋`, resets the transient streaming fields to idle,
and resumes the round loop exactly when `status = in_progress`,
`errorMessage` is null and no loop is active; a session restored in
`error` or `completed` state does not resume, and a resumed loop keeps
every recorded turn as a prefix and appends only the turns of rounds
`⌊messages.length / 2⌋ .. maxRounds`. -/
theorem C6_restoreState_resume (gen : GenOracle) (body : JudgeOracle)
    (loopActive : Bool) (s : DebateState)
    (hgen : ∀ sd t ms, ∃ txt, gen sd t ms = Except.ok txt)
    (hj : s.config.judgeConfigs.length = 6)
    (hpersist : s.errorMessage ≠ none → s.status = Status.error) :
    (∀ (gen2 : GenOracle) (body2 : JudgeOracle) (m : ManagerState),
      m.state.errorMessage = none →
      ∀ x ∈ (start gen2 body2 m).trace,
        x.errorMessage ≠ none → x.status = Status.error) ∧
    ∃ out, restoreState gen body loopActive s = Except.ok out ∧
      out.manager.currentRound = s.messages.length / 2 ∧
      out.manager.maxRounds = s.config.maxRounds ∧
      out.manager.streamingText = "" ∧
      out.manager.currentStreamingSide = none ∧
      out.manager.isThinking = false ∧
      out.manager.isRunning = out.resumed ∧
      (out.resumed = true ↔
        (s.status = Status.in_progress ∧ s.errorMessage = none ∧
          loopActive = false)) ∧
      (out.resumed = true →
        ∃ extra sF, IsRoundList extra ∧
          extra.length = 2 * (s.config.maxRounds - s.messages.length / 2) ∧
          out.loopOutcome = some (Except.ok sF) ∧
          sF.messages = s.messages ++ extra) := by
  constructor
  · intro gen2 body2 m hm x hx hxe
    rcases start_trace_char gen2 body2 m x hx with
      ⟨ms, hxeq⟩ | ⟨ms, e, hxeq⟩ | ⟨ms, rs, hxeq⟩ | ⟨ms, rs, hxeq⟩ | ⟨ms, rs, hxeq⟩
    · exact absurd (by rw [hxeq]; exact hm) hxe
    · rw [hxeq]; rfl
    · exact absurd (by rw [hxeq]; exact hm) hxe
    · exact absurd (by rw [hxeq]; exact hm) hxe
    · exact absurd (by rw [hxeq]; exact hm) hxe
  · have herrnone : s.status = Status.in_progress → s.errorMessage = none := by
      intro hst
      cases he : s.errorMessage with
      | none => rfl
      | some e =>
          have := hpersist (by rw [he]; exact fun h => Option.noConfusion h)
          rw [hst] at this
          exact Status.noConfusion this
    by_cases hcond : s.status = Status.in_progress ∧
        jsFalsy s.errorMessage = true ∧ loopActive = false
    · obtain ⟨extra, results, trL, hlist, hlen, hreslen, hloop⟩ :=
        runDebateLoop_success gen body s.config.maxRounds
          (s.messages.length / 2) s hgen
      cases hres : restoreState gen body loopActive s with
      | error e =>
          simp only [restoreState, initializeAgents, hj, ne_eq,
            not_true_eq_false, if_false, if_pos hcond] at hres
          exact Except.noConfusion hres
      | ok out =>
          have hval := hres
          simp only [restoreState, initializeAgents, hj, ne_eq,
            not_true_eq_false, if_false, if_pos hcond,
            Except.ok.injEq] at hval
          subst hval
          refine ⟨_, rfl, rfl, rfl, rfl, rfl, rfl, rfl, ?_, ?_⟩
          · exact iff_of_true rfl ⟨hcond.1, herrnone hcond.1, hcond.2.2⟩
          · intro _
            refine ⟨extra, completedStateOf s extra results, hlist, hlen,
              ?_, rfl⟩
            simp only [hloop]
    · cases hres : restoreState gen body loopActive s with
      | error e =>
          simp only [restoreState, initializeAgents, hj, ne_eq,
            not_true_eq_false, if_false, if_neg hcond] at hres
          exact Except.noConfusion hres
      | ok out =>
          have hval := hres
          simp only [restoreState, initializeAgents, hj, ne_eq,
            not_true_eq_false, if_false, if_neg hcond,
            Except.ok.injEq] at hval
          subst hval
          refine ⟨_, rfl, rfl, rfl, rfl, rfl, rfl, rfl, ?_, ?_⟩
          · constructor
            · intro hfalse
              exact absurd hfalse (by simp)
            · rintro ⟨h1, h2, h3⟩
              exact absurd ⟨h1, by rw [h2]; rfl, h3⟩ hcond
          · intro h
            exact absurd h (by simp)

/-- C6 witness: restoring the mid-lifecycle in-progress snapshot of the
concrete run resumes the loop at round 1 of 1 (nothing to replay). -/
theorem C6_restoreState_resume_witness :
    ∃ out, restoreState cexGen cexOracle false cexS2 = Except.ok out ∧
      out.manager.currentRound = 1 ∧ out.resumed = true := by
  obtain ⟨-, out, heq, hcur, -, -, -, -, -, hiff, -⟩ :=
    C6_restoreState_resume cexGen cexOracle false cexS2
      (fun sd t ms => by cases sd
                         · exact ⟨"P", rfl⟩
                         · exact ⟨"C", rfl⟩)
      rfl (fun h => absurd rfl h)
  exact ⟨out, heq, by rw [hcur]; rfl, hiff.mpr ⟨rfl, rfl, rfl⟩⟩

/-- A structurally complete snapshot with the given status string: all five
required top-level fields present and well-typed, `config.judgeConfigs` an
array. -/
def snapOf (st : String) : Json :=
  Json.obj [("topic", Json.str "t"), ("background", Json.str "b"),
    ("config", Json.obj [("judgeConfigs", Json.arr [])]),
    ("status", Json.str st), ("messages", Json.arr [])]

/-- The spec's corrupted-snapshot example: the `status` field is missing. -/
def snapMissingStatus : Json :=
  Json.obj [("topic", Json.str "t"), ("background", Json.str "b"),
    ("config", Json.obj [("judgeConfigs", Json.arr [])]),
    ("messages", Json.arr [])]

/-- C7: the validator's status check does not test membership of the
declared status enum: it accepts `"active"`, which is not one of the five
declared statuses, and rejects the declared `"in_progress"` and
`"judging"`, so a perfectly valid in-flight snapshot is quarantined and
reported not-found.  The failure path itself behaves as claimed: a
snapshot missing `status` (and the wrongly rejected in-progress one) is
quarantined with the failure reason and reported not-found — never a crash
— a missing file is a plain not-found, and an accepted snapshot is
restored. -/
theorem C7_validator_status_enum_mismatch :
    isValidDebateState (snapOf "in_progress") = false ∧
    isValidDebateState (snapOf "judging") = false ∧
    "in_progress" ∈ declaredStatusStrings ∧
    "judging" ∈ declaredStatusStrings ∧
    isValidDebateState (snapOf "active") = true ∧
    "active" ∉ declaredStatusStrings ∧
    recoverFromSnapshot true snapMissingStatus =
      RecoveryOutcome.quarantinedNotFound "Invalid debate state structure" ∧
    recoverFromSnapshot true (snapOf "in_progress") =
      RecoveryOutcome.quarantinedNotFound "Invalid debate state structure" ∧
    recoverFromSnapshot true (snapOf "pending") = RecoveryOutcome.restored ∧
    recoverFromSnapshot false (snapOf "pending") =
      RecoveryOutcome.missingNotFound := by
  decide

/-- C8: the `getDebateStatus` handler always fails with
`INTERNAL_SERVER_ERROR "Failed to get debate status"`, whatever the store
lookup would have produced — the un-awaited `getDebate` Promise is truthy,
so the not-found branch is dead, and calling `getState` on the Promise
throws, so the status payload is never returned.  In particular it never
returns the claimed NOT_FOUND error for an unknown identifier and never
returns the status payload for a known one. -/
theorem C8_getDebateStatus_missing_await :
    (∀ lookupResult : Option ManagerState,
      getDebateStatus lookupResult = Except.error statusFetchFailedError) ∧
    (∀ lookupResult : Option ManagerState,
      getDebateStatus lookupResult ≠ Except.error debateNotFoundError) ∧
    (∀ (lookupResult : Option ManagerState) (p : StatusPayload),
      getDebateStatus lookupResult ≠ Except.ok p) := by
  refine ⟨fun lr => rfl, ?_, ?_⟩
  · intro lr h
    simp [getDebateStatus, callGetState, promiseTruthy,
      statusFetchFailedError, debateNotFoundError, TrpcError.mk.injEq] at h
  · intro lr p h
    simp [getDebateStatus, callGetState, promiseTruthy] at h

/-- C8 witness: the handler's answer for an unknown identifier (the store
resolves to none) is the internal error, not the claimed not-found. -/
theorem C8_getDebateStatus_missing_await_witness :
    getDebateStatus none = Except.error statusFetchFailedError :=
  C8_getDebateStatus_missing_await.1 none

/-- C9 counterexample: with a generation oracle that fails fatally, the
promise returned by `start` itself settles with that failure — `start`
awaits the debate loop on line 435 and rethrows — so the loop's failure
does surface via the return value of `start`, not only via the error
state (which is also set). -/
theorem C9_counterexample_start_propagates_failure :
    (start cexGenFail cexOracle cexManager).result = Except.error "boom" ∧
    (start cexGenFail cexOracle cexManager).result ≠ Except.ok () ∧
    (start cexGenFail cexOracle cexManager).final.state.status =
      Status.error ∧
    (start cexGenFail cexOracle cexManager).final.state.errorMessage =
      some "boom" := by
  refine ⟨rfl, ?_, rfl, rfl⟩
  intro h
  rw [show (start cexGenFail cexOracle cexManager).result =
    Except.error "boom" from rfl] at h
  exact Except.noConfusion h

/-- C9 amended: `start` throws "Debate is already running" if invoked while
running; otherwise it transitions the session to `in_progress` (the first
emitted snapshot) and runs the round loop to completion before its promise
settles: a loop failure both sets the error state (with the failure's
message) and propagates out of `start` as a rejection, while success ends
`completed`; the running flag is cleared either way.  Callers obtain
immediate return only by not awaiting the promise, as `createDebate`
does. -/
theorem C9_amended_start_behavior (gen : GenOracle) (body : JudgeOracle)
    (m : ManagerState) :
    (m.isRunning = true →
      (start gen body m).result = Except.error "Debate is already running" ∧
      (start gen body m).final = m ∧ (start gen body m).trace = []) ∧
    (m.isRunning = false →
      (start gen body m).trace.head? =
        some { m.state with status := Status.in_progress } ∧
      (∀ e, (start gen body m).result = Except.error e →
        (start gen body m).final.state.status = Status.error ∧
        (start gen body m).final.state.errorMessage = some e) ∧
      ((start gen body m).result = Except.ok () →
        (start gen body m).final.state.status = Status.completed) ∧
      (start gen body m).final.isRunning = false) := by
  constructor
  · intro hrun
    refine ⟨?_, ?_, ?_⟩ <;> simp [start, hrun]
  · intro hrun
    obtain ⟨hL1, hL2, hL3⟩ := runDebateLoop_char gen body m.maxRounds
      m.currentRound { m.state with status := Status.in_progress }
    rcases hloop : runDebateLoop gen body m.maxRounds m.currentRound
      { m.state with status := Status.in_progress } with ⟨tr, r, out⟩
    rw [hloop] at hL1 hL2 hL3
    cases out with
    | error es =>
        rcases es with ⟨e0, sE⟩
        refine ⟨?_, ?_, ?_, ?_⟩
        · simp [start, hrun, hloop]
        · intro e h
          simp only [start, hrun, Bool.false_eq_true, if_false, hloop,
            Except.error.injEq] at h
          subst h
          refine ⟨?_, ?_⟩ <;> simp [start, hrun, hloop, setErrorStatus]
        · intro h
          simp [start, hrun, hloop] at h
        · simp [start, hrun, hloop]
    | ok sDone =>
        obtain ⟨ms, rs, hD⟩ := hL2 sDone rfl
        refine ⟨?_, ?_, ?_, ?_⟩
        · simp [start, hrun, hloop]
        · intro e h
          simp [start, hrun, hloop] at h
        · intro _
          simp only [start, hrun, Bool.false_eq_true, if_false, hloop]
          rw [hD]
        · simp [start, hrun, hloop]

/-- C9 witness: the amended behavior at the concrete failing run and at a
double-start. -/
theorem C9_amended_start_behavior_witness :
    ((start cexGenFail cexOracle { cexManager with isRunning := true }).result
      = Except.error "Debate is already running") ∧
    (start cexGenFail cexOracle cexManager).final.state.status =
      Status.error :=
  ⟨((C9_amended_start_behavior cexGenFail cexOracle
      { cexManager with isRunning := true }).1 rfl).1,
   (((C9_amended_start_behavior cexGenFail cexOracle cexManager).2 rfl).2.1
      "boom" rfl).1⟩

/-- C10: constructing a `DebateManager` — and hence `restoreState`, which
re-runs `initializeAgents` — throws "必须配置6个评委" exactly when the
configuration does not hold 6 judge configs; with exactly 6, construction
succeeds and creates the six judge instances in config order. -/
theorem C10_panel_size_enforced (topic background : String)
    (cfg : DebateConfig) :
    (cfg.judgeConfigs.length = 6 →
      ∃ m, mkDebateManager topic background cfg = Except.ok m ∧
        m.judgeAgents.length = 6 ∧
        m.judgeAgents = cfg.judgeConfigs.map fun jc =>
          { apiKey := jc.apiKey, name := jc.name }) ∧
    (cfg.judgeConfigs.length ≠ 6 →
      mkDebateManager topic background cfg = Except.error "必须配置6个评委" ∧
      ∀ (gen : GenOracle) (body : JudgeOracle) (act : Bool) (s : DebateState),
        s.config = cfg →
        restoreState gen body act s = Except.error "必须配置6个评委") := by
  constructor
  · intro h6
    cases hmk : mkDebateManager topic background cfg with
    | error e =>
        simp [mkDebateManager, initializeAgents, h6] at hmk
    | ok m =>
        have hval := hmk
        simp only [mkDebateManager, initializeAgents, h6, ne_eq,
          not_true_eq_false, if_false, Except.ok.injEq] at hval
        subst hval
        exact ⟨_, rfl, by simp [h6], rfl⟩
  · intro h6
    refine ⟨by simp [mkDebateManager, initializeAgents, h6], ?_⟩
    intro gen body act s hcfg
    simp [restoreState, initializeAgents, hcfg, h6]

/-- C10 witness: the 6-judge configuration constructs 6 judge instances;
the 5-judge configuration is rejected by construction and by restore. -/
theorem C10_panel_size_enforced_witness :
    (∃ m, mkDebateManager "T" "B" cexConfig = Except.ok m ∧
      m.judgeAgents.length = 6 ∧
      m.judgeAgents = cexConfig.judgeConfigs.map fun jc =>
        { apiKey := jc.apiKey, name := jc.name }) ∧
    mkDebateManager "T" "B" cexConfig5 = Except.error "必须配置6个评委" ∧
    restoreState cexGen cexOracle false
        { cexBaseState with config := cexConfig5 } =
      Except.error "必须配置6个评委" :=
  ⟨(C10_panel_size_enforced "T" "B" cexConfig).1 rfl,
   ((C10_panel_size_enforced "T" "B" cexConfig5).2 (by decide)).1,
   ((C10_panel_size_enforced "T" "B" cexConfig5).2 (by decide)).2
     cexGen cexOracle false { cexBaseState with config := cexConfig5 } rfl⟩

end AiBate
